import Mathlib

/-!
# Verification of the imexam examination-loop core and XPA bindings

Shallow embedding of the interactive examination dispatch loop, its
parameterized analysis-function registry, and the low-level XPA get/set
wrappers of the imexam package.  The registry, parameter-set, invoker and
loop definitions are modelled from the specification (their Python
implementation, `imexam/imexamine.py` and friends, is not part of the
source tree given here — only its documentation is); the XPA definitions
are embedded from the Cython source `wrappers/xpa.pyx`.
-/

/-- Modelled from the spec: a tagged variant for parameter values
(bool/int/float/string); the Python source keeps untyped slots, the spec
(§9) models them as a sum type.  Floats are embedded as rationals. -/
inductive ParamValue
  | pbool (v : Bool)
  | pint (v : Int)
  | pfloat (v : ℚ)
  | pstr (v : String)
deriving DecidableEq, Repr

/-- Modelled from the spec: one option of a ParameterSet — a name, a
current value and a human-readable description. -/
structure ParamOption where
  name : String
  value : ParamValue
  desc : String
deriving DecidableEq, Repr

/-- Modelled from the spec: a ParameterSet is an ordered collection of
options together with the values recorded at construction time (the
targets of reset-to-defaults / `unlearn`). -/
structure ParameterSet where
  options : List ParamOption
  defaults : List ParamOption
deriving DecidableEq, Repr

/-- Modelled from the spec: construction records the initial options as
the defaults. -/
def mkParameterSet (opts : List ParamOption) : ParameterSet :=
  { options := opts, defaults := opts }

/-- Errors raised by ParameterSet edits (spec §7). -/
inductive ParamErr
  | UnknownOption
deriving DecidableEq, Repr

/-- Modelled from the spec: `get(name)` fails with `UnknownOption` if the
name is absent. -/
def ParameterSet.get (p : ParameterSet) (n : String) : Except ParamErr ParamValue :=
  match p.options.find? (fun o => o.name = n) with
  | some o => .ok o.value
  | none => .error .UnknownOption

/-- Modelled from the spec: `set(name, value)` updates an existing option
in place and fails with `UnknownOption` if the name is absent; the
construction-time defaults are untouched. -/
def ParameterSet.set (p : ParameterSet) (n : String) (v : ParamValue) :
    Except ParamErr ParameterSet :=
  if p.options.any (fun o => o.name = n) then
    .ok { p with
          options := p.options.map (fun o =>
            if o.name = n then { o with value := v } else o) }
  else .error .UnknownOption

/-- Modelled from the spec: restore the set to the values recorded at
construction; never fails. -/
def ParameterSet.reset_to_defaults (p : ParameterSet) : ParameterSet :=
  { p with options := p.defaults }

/-- Modelled from the spec: `as_dict()` — read-only ordered
name-to-value snapshot. -/
def ParameterSet.as_dict (p : ParameterSet) : List (String × ParamValue) :=
  p.options.map (fun o => (o.name, o.value))

/-- The full 2-D numeric array under examination; pixel values are
embedded as rationals. -/
structure DataArray where
  w : Nat
  h : Nat
  data : Nat → Nat → ℚ

/-- A DataWindow: a sub-rectangle view (inclusive bounds, absolute
indices) of the full array. -/
structure Window where
  x0 : Nat
  x1 : Nat
  y0 : Nat
  y1 : Nat
  data : Nat → Nat → ℚ

/-- An analysis function: (x, y, data window, resolved parameters) to
either a numeric result or a raised error message (spec §6). -/
def AnalysisFn : Type :=
  ℚ → ℚ → Window → List (String × ParamValue) → Except String ℚ

/-- Modelled from the spec: a RegistryEntry — key, analysis function,
optional parameter set, description; `builtin` marks
construction-time entries (reset_all removes the others). -/
structure RegistryEntry where
  key : Char
  fn : AnalysisFn
  pset : Option ParameterSet
  desc : String
  builtin : Bool

/-- Modelled from the spec: the analysis-function registry — an
ordered list of entries with unique keys. -/
structure Registry where
  entries : List RegistryEntry

/-- Errors raised by registry operations (spec §7). -/
inductive RegErr
  | DuplicateKey
  | UnknownKey
  | ReservedKey
deriving DecidableEq, Repr

/-- The reserved quit key of the examination loop. -/
def quitKey : Char := 'q'

/-- Modelled from the spec: `lookup(key)` fails with `UnknownKey` if the
key is unbound. -/
def Registry.lookup (r : Registry) (k : Char) : Except RegErr RegistryEntry :=
  match r.entries.find? (fun e => e.key = k) with
  | some e => .ok e
  | none => .error .UnknownKey

/-- Modelled from the spec: `register` never accepts the reserved quit
key and fails with `DuplicateKey` if the key is already bound; user
entries are appended (registration order is iteration order) and are not
built-ins. -/
def Registry.register (r : Registry) (k : Char) (f : AnalysisFn)
    (ps : Option ParameterSet) (d : String) : Except RegErr Registry :=
  if k = quitKey then .error .ReservedKey
  else if r.entries.any (fun e => e.key = k) then .error .DuplicateKey
  else .ok { entries := r.entries ++ [⟨k, f, ps, d, false⟩] }

/-- The registry state after a `register` call: on failure the registry
is left as it was (the mutating call raised instead of writing). -/
def Registry.registerState (r : Registry) (k : Char) (f : AnalysisFn)
    (ps : Option ParameterSet) (d : String) : Registry :=
  match r.register k f ps d with
  | .ok r' => r'
  | .error _ => r

/-- Modelled from the spec: `unregister(key)` removes the entry bound to
the key (built-ins included) and fails with `UnknownKey` if unbound. -/
def Registry.unregister (r : Registry) (k : Char) : Except RegErr Registry :=
  if r.entries.any (fun e => e.key = k) then
    .ok { entries := r.entries.filter (fun e => ¬ e.key = k) }
  else .error .UnknownKey

/-- Restore one entry's parameter set to its defaults. -/
def resetEntry (e : RegistryEntry) : RegistryEntry :=
  { e with pset := e.pset.map ParameterSet.reset_to_defaults }

/-- Modelled from the spec: `reset_all()` (the `unlearn` method) removes
every non-built-in entry and restores every built-in entry's parameter
set to its defaults. -/
def Registry.reset_all (r : Registry) : Registry :=
  { entries := (r.entries.filter (fun e => e.builtin)).map resetEntry }

/-- Well-formedness of a registry: keys are distinct and the reserved
quit key is never bound (spec §3 RegistryEntry invariant). -/
def Registry.WF (r : Registry) : Prop :=
  (r.entries.map (fun e => e.key)).Nodup ∧
  ∀ e ∈ r.entries, e.key ≠ quitKey

/-- Modelled from the spec: resolve the DataWindow — slice the full
array centered at `(round x, round y)` with the given region size,
clipped to the array bounds (never index out of range). -/
def resolveWindow (arr : DataArray) (size : Nat) (x y : ℚ) : Window :=
  let cx : Int := round x
  let cy : Int := round y
  let half : Int := (size : Int) / 2
  { x0 := min (arr.w - 1) (cx - half).toNat
    x1 := min (arr.w - 1) (cx + half).toNat
    y0 := min (arr.h - 1) (cy - half).toNat
    y1 := min (arr.h - 1) (cy + half).toNat
    data := arr.data }

/-- The whole-array window (used when an analysis function declares no
region-size-like parameter: it reads the full frame). -/
def fullWindow (arr : DataArray) : Window :=
  { x0 := 0, x1 := arr.w - 1, y0 := 0, y1 := arr.h - 1, data := arr.data }

/-- Number of columns of a window (inclusive bounds). -/
def Window.width (w : Window) : Nat := w.x1 + 1 - w.x0

/-- Number of rows of a window (inclusive bounds). -/
def Window.height (w : Window) : Nat := w.y1 + 1 - w.y0

/-- A pixel index (i, j) lies in the window's rectangle. -/
def Window.inWindow (w : Window) (i j : Nat) : Prop :=
  w.x0 ≤ i ∧ i ≤ w.x1 ∧ w.y0 ≤ j ∧ j ≤ w.y1

/-- The pixel-index rectangle of a window as a finite set. -/
def Window.pixels (w : Window) : Finset (Nat × Nat) :=
  Finset.Icc w.x0 w.x1 ×ˢ Finset.Icc w.y0 w.y1

/-- Look a named value up in a resolved parameter mapping. -/
def lookupParam (ps : List (String × ParamValue)) (n : String) : Option ParamValue :=
  (ps.find? (fun p => p.1 = n)).map (fun p => p.2)

/-- The pixels of a window whose centers fall within distance `r` of the
center `(x, y)` (spec: "pixels used to calculate the enclosed flux are
those whose centers fall inside the radius distance"). -/
def aperPixels (w : Window) (x y : ℚ) (r : Int) : Finset (Nat × Nat) :=
  w.pixels.filter (fun p =>
    ((p.1 : ℚ) - x) ^ 2 + ((p.2 : ℚ) - y) ^ 2 ≤ (r : ℚ) ^ 2)

/-- The enclosed flux: sum of the pixel values whose centers fall within
the aperture radius of the center. -/
def aperFlux (w : Window) (x y : ℚ) (r : Int) : ℚ :=
  (aperPixels w x y r).sum (fun p => w.data p.1 p.2)

/-- Modelled from the spec: circular aperture photometry — reads its
`radius` parameter and sums the pixel values whose centers fall within
that distance of the cursor; a missing or mistyped radius raises an
attributable `InvalidParameter` error. -/
def aperphot : AnalysisFn := fun x y w ps =>
  match lookupParam ps "radius" with
  | some (.pint r) => .ok (aperFlux w x y r)
  | _ => .error "InvalidParameter: radius"

/-- Modelled from the spec: the documented default parameters for
aperture photometry (`aperphot_pars`). -/
def aperphot_pars : ParameterSet :=
  mkParameterSet
    [⟨"function", .pstr "aperphot", ""⟩,
     ⟨"center", .pbool true, "Center the object location using a 2d gaussian fit"⟩,
     ⟨"width", .pint 5, "Width of sky annulus in pixels"⟩,
     ⟨"subsky", .pbool true, "Subtract a sky background?"⟩,
     ⟨"skyrad", .pint 15, "Distance to start sky annulus is pixels"⟩,
     ⟨"radius", .pint 5, "Radius of aperture for star flux"⟩,
     ⟨"zmag", .pfloat 25, "zeropoint for the magnitude calculation"⟩]

/-- Modelled from the spec: square-region statistics (default median is
not modelled numerically; the function only witnesses a region-sized
entry) — declares a `region_size` parameter, so the invoker slices. -/
def report_stat : AnalysisFn := fun _ _ w _ =>
  .ok ((w.width : ℚ) * (w.height : ℚ))

/-- Modelled from the spec: default parameters for region statistics,
carrying the region-size-like option. -/
def report_stat_pars : ParameterSet :=
  mkParameterSet
    [⟨"function", .pstr "report_stat", ""⟩,
     ⟨"region_size", .pint 5, "Region size in pixels to use"⟩,
     ⟨"stat", .pstr "median", "Which stat to use"⟩]

/-- Modelled from the spec: the built-in registry created at
examination-loop construction time (the keys relevant here: aperture
photometry on 'a', region statistics on 'm'). -/
def initRegistry : Registry :=
  { entries :=
      [⟨'a', aperphot, some aperphot_pars,
        "aperture sum, with radius region_size", true⟩,
       ⟨'m', report_stat, some report_stat_pars,
        "square region stats, in region_size square, default stat is median", true⟩] }

/-- The outcome reported by one analysis invocation (spec §4.3/§7):
a numeric/textual result, a non-fatal unknown-key notice, or a caught
`AnalysisFailure`. -/
inductive InvokeOutcome
  | result (v : ℚ)
  | unknownKey
  | analysisFailure (msg : String)
deriving DecidableEq, Repr

/-- The numeric value carried by a successful invocation outcome. -/
def InvokeOutcome.value : InvokeOutcome → Option ℚ
  | .result v => some v
  | _ => none

/-- Modelled from the spec: the window an entry's function receives — a
slice of the given size when its parameter set declares a
`region_size` parameter, the full frame otherwise. -/
def windowFor (e : RegistryEntry) (arr : DataArray) (x y : ℚ) : Window :=
  match e.pset with
  | none => fullWindow arr
  | some p =>
    match p.get "region_size" with
    | .ok (.pint s) => resolveWindow arr s.toNat x y
    | _ => fullWindow arr

/-- Modelled from the spec: the parameters handed to the analysis
function — the entry's current `as_dict()` minus the `function`
pseudo-option (an entry with no parameter set gets none). -/
def resolvedParams (e : RegistryEntry) : List (String × ParamValue) :=
  match e.pset with
  | some p => p.as_dict.filter (fun q => ¬ q.1 = "function")
  | none => []

/-- Modelled from the spec: the Analysis Invoker — look the key up
(unknown keys are non-fatal notices), resolve the DataWindow, call the
function with the current parameters, and catch any failure the analysis
function raises, converting it into a reported `AnalysisFailure`. -/
def invoke (r : Registry) (arr : DataArray) (k : Char) (x y : ℚ) : InvokeOutcome :=
  match r.lookup k with
  | .error _ => .unknownKey
  | .ok e =>
    match e.fn x y (windowFor e arr x y) (resolvedParams e) with
    | .ok v => .result v
    | .error msg => .analysisFailure msg

/-- Modelled from the spec: an ExaminationSession — the live registry,
the current full array, the plot-window count and the continue flag. -/
structure Session where
  registry : Registry
  arr : DataArray
  contFlag : Bool
  windows : Nat

/-- A cursor event from the viewer adapter: coordinates and key. -/
structure Event where
  x : ℚ
  y : ℚ
  key : Char

/-- What one dispatch step reported to the user. -/
inductive StepReport
  | quit
  | newWindow
  | report (o : InvokeOutcome)
deriving DecidableEq, Repr

/-- The states of the examination loop (spec §4.5). -/
inductive LoopState
  | IDLE
  | WAITING_FOR_EVENT
  | DISPATCHING
  | TERMINATED
deriving DecidableEq, Repr

/-- Modelled from the spec: one dispatch step of the examination loop —
the quit sentinel flips the continue flag, the new-window sentinel opens
a plot window, any other key goes through the Analysis Invoker (errors
there are reported, never fatal). -/
def step (s : Session) (e : Event) : Session × StepReport :=
  if e.key = quitKey then ({ s with contFlag := false }, .quit)
  else if e.key = '2' then ({ s with windows := s.windows + 1 }, .newWindow)
  else (s, .report (invoke s.registry s.arr e.key e.x e.y))

/-- Modelled from the spec: the examination loop run against a stream of
viewer events.  Returns the final session, the loop state reached, and
how many events were polled; on the quit sentinel the loop terminates
and reads no further events; exhausting the stream leaves the loop
blocked waiting for the next event. -/
def runLoop (s : Session) : List Event → Session × LoopState × Nat
  | [] => (s, .WAITING_FOR_EVENT, 0)
  | e :: rest =>
    let (s', rep) := step s e
    match rep with
    | .quit => (s', .TERMINATED, 1)
    | _ =>
      let (s'', st, n) := runLoop s' rest
      (s'', st, n + 1)

/-! ## XPA bindings, embedded from the Cython source `xpa.pyx` -/

/-- The result the C call `XPAGet` (with `n = 1`) hands back to `_get`:
the return count `got`, the filled buffer `bufs[0]` (with its length
implicit in the byte string), and `messages[0]` (`none` for NULL). -/
structure CGetResult where
  got : Int
  buf : List UInt8
  message : Option (List UInt8)

/-- The result the C call `XPASet` (with `n = 1`) hands back to `_set`:
the return count `got` and `messages[0]` (`none` for NULL). -/
structure CSetResult where
  got : Int
  message : Option (List UInt8)

/-- An `XpaException` raised by the wrappers, carrying its message. -/
structure XpaException where
  mesg : List UInt8
deriving DecidableEq, Repr

/-- The fixed unknown-error text of `_get` (source line 106). -/
def unknownGetError : List UInt8 :=
  "Unknown XPA Error : XPAGet returned 0!".toUTF8.toList

/-- The fixed unknown-error text of `_set` (source line 141). -/
def unknownSetError : List UInt8 :=
  "Unknown XPA Error (XPASet returned 0)!".toUTF8.toList

/-- Embedded from `xpa.pyx` `_get`: call `XPAGet`; when it returned 1
and left no message, hand the buffer back; otherwise raise
`XpaException` with the server message when there is one and the fixed
unknown-error text otherwise. -/
def xpaGet (call : CGetResult) : Except XpaException (List UInt8) :=
  if call.got = 1 ∧ call.message = none then .ok call.buf
  else
    .error ⟨match call.message with
            | some m => m
            | none => unknownGetError⟩

/-- Embedded from `xpa.pyx` `_set`: a falsy buffer (`None` or empty) is
replaced by the empty byte string with length 0 before `XPASet` is
called; this is the (buffer, length) pair that reaches the C layer. -/
def resolveSetBuf (buf : Option (List UInt8)) : List UInt8 × Nat :=
  match buf with
  | none => ([], 0)
  | some b => if b.isEmpty then ([], 0) else (b, b.length)

/-- Embedded from `xpa.pyx` `_set`: resolve the buffer, call `XPASet`
(modelled as a function of the resolved buffer and length), and turn a
failed call into an `XpaException` exactly as `_get` does. -/
def xpaSet (xpasetC : List UInt8 → Nat → CSetResult) (buf : Option (List UInt8)) :
    Except XpaException Unit :=
  let (b, len) := resolveSetBuf buf
  let call := xpasetC b len
  if call.got = 1 ∧ call.message = none then .ok ()
  else
    .error ⟨match call.message with
            | some m => m
            | none => unknownSetError⟩

/-! ## Concrete fixtures -/

/-- A flat n-by-n array with constant pixel value v. -/
def flat (n : Nat) (v : ℚ) : DataArray := ⟨n, n, fun _ _ => v⟩

/-- The 100-by-100 synthetic test array that is 10 everywhere. -/
def flat100 : DataArray := flat 100 10

/-! ## Theorems -/

/-- C9: the module-level XPA `set` with `buf=None` behaves exactly like
`set` with an empty byte string — `_set` replaces a falsy buffer by
`b""` with length 0, so `None` never reaches the C layer. -/
theorem xpaSet_none_eq_empty (xpasetC : List UInt8 → Nat → CSetResult) :
    xpaSet xpasetC none = xpaSet xpasetC (some []) ∧
    resolveSetBuf none = ([], 0) ∧ resolveSetBuf (some []) = ([], 0) :=
  ⟨rfl, rfl, rfl⟩

/-- C10: `_get` hands the retrieved buffer back exactly when `XPAGet`
reported one successful response (`got = 1`) with no error message, and
in every other case raises `XpaException` whose message is the
server-supplied text when one was returned and the fixed unknown-error
string otherwise; the single equation makes success and exception
mutually exclusive and exhaustive. -/
theorem xpaGet_characterization (call : CGetResult) :
    xpaGet call =
      (if call.got = 1 ∧ call.message = none then .ok call.buf
       else .error ⟨call.message.getD unknownGetError⟩) := by
  unfold xpaGet
  cases hm : call.message <;> simp [Option.getD]

theorem resolveWindow_x1_le (arr : DataArray) (size : Nat) (x y : ℚ) :
    (resolveWindow arr size x y).x1 ≤ arr.w - 1 := by
  simp [resolveWindow]

theorem resolveWindow_y1_le (arr : DataArray) (size : Nat) (x y : ℚ) :
    (resolveWindow arr size x y).y1 ≤ arr.h - 1 := by
  simp [resolveWindow]

/-- C4: resolving the DataWindow clips to the array bounds: every pixel
index of the resolved window is strictly inside the array (so slicing
never indexes out of range), for every cursor position including those
inside or within 0.5 pixels of the boundary; and at the edge example —
region size 5 at (0, 0) on a 100-by-100 array — the window is a reduced
3-by-3, not an error. -/
theorem resolveWindow_safe (arr : DataArray) (size : Nat) (x y : ℚ)
    (hw : 0 < arr.w) (hh : 0 < arr.h)
    (hx : -(1/2 : ℚ) ≤ x ∧ x ≤ (arr.w : ℚ) - 1/2)
    (hy : -(1/2 : ℚ) ≤ y ∧ y ≤ (arr.h : ℚ) - 1/2) :
    (∀ i j, (resolveWindow arr size x y).inWindow i j → i < arr.w ∧ j < arr.h) ∧
    (resolveWindow flat100 5 0 0).width = 3 ∧
    (resolveWindow flat100 5 0 0).height = 3 ∧
    (resolveWindow flat100 5 0 0).width < 5 := by
  refine ⟨?_, by norm_num [resolveWindow, Window.width, flat100, flat]; decide,
    by norm_num [resolveWindow, Window.height, flat100, flat]; decide,
    by norm_num [resolveWindow, Window.width, flat100, flat]; decide⟩
  intro i j hij
  obtain ⟨-, hi, -, hj⟩ := hij
  have h1 := resolveWindow_x1_le arr size x y
  have h2 := resolveWindow_y1_le arr size x y
  omega

theorem lookup_ok_mem {r : Registry} {k : Char} {e : RegistryEntry}
    (h : r.lookup k = .ok e) : e ∈ r.entries ∧ e.key = k := by
  unfold Registry.lookup at h
  cases hf : r.entries.find? (fun e => e.key = k) with
  | none => rw [hf] at h; exact absurd h (by simp)
  | some e' =>
    rw [hf] at h
    cases h
    exact ⟨List.mem_of_find?_eq_some hf, by simpa using List.find?_some hf⟩

theorem lookup_ok_any {r : Registry} {k : Char} {e : RegistryEntry}
    (h : r.lookup k = .ok e) : r.entries.any (fun e => e.key = k) = true := by
  obtain ⟨hm, hk⟩ := lookup_ok_mem h
  exact List.any_eq_true.mpr ⟨e, hm, by simpa using hk⟩

theorem lookup_err_any {r : Registry} {k : Char}
    (h : r.lookup k = .error .UnknownKey) :
    r.entries.any (fun e => e.key = k) = false := by
  unfold Registry.lookup at h
  cases hf : r.entries.find? (fun e => e.key = k) with
  | none =>
    exact List.any_eq_false.mpr (by simpa using List.find?_eq_none.mp hf)
  | some e' => rw [hf] at h; exact absurd h (by simp)

/-- C1: registering a key that is already bound in a well-formed
registry fails with `DuplicateKey`, the post-state registry is the
unchanged original, and the entry previously bound to the key — its
function, parameter set and description — is still what lookup
returns: the existing binding is never silently overwritten. -/
theorem register_duplicate_rejected (r : Registry) (k : Char)
    (e : RegistryEntry) (f : AnalysisFn) (ps : Option ParameterSet)
    (d : String) (hwf : r.WF) (hb : r.lookup k = .ok e) :
    r.register k f ps d = .error .DuplicateKey ∧
    r.registerState k f ps d = r ∧
    r.lookup k = .ok e := by
  obtain ⟨hm, hk⟩ := lookup_ok_mem hb
  have hq : k ≠ quitKey := hk ▸ hwf.2 e hm
  have hreg : r.register k f ps d = .error .DuplicateKey := by
    unfold Registry.register
    rw [if_neg hq, lookup_ok_any hb, if_pos rfl]
  refine ⟨hreg, ?_, hb⟩
  unfold Registry.registerState
  rw [hreg]

/-- The aperture-photometry built-in entry. -/
def aperEntry : RegistryEntry :=
  ⟨'a', aperphot, some aperphot_pars, "aperture sum, with radius region_size", true⟩

theorem initRegistry_wf : initRegistry.WF := by
  constructor
  · decide
  · intro e he
    simp only [initRegistry, List.mem_cons, List.not_mem_nil, or_false] at he
    rcases he with h | h <;> subst h <;> decide

/-- C1 witness: the built-in registry already binds 'a'; re-registering
'a' is rejected with `DuplicateKey` and the aperture-photometry entry
survives untouched. -/
theorem register_duplicate_rejected_witness :
    initRegistry.WF ∧ initRegistry.lookup 'a' = .ok aperEntry ∧
    (initRegistry.register 'a' aperphot none "dup" = .error .DuplicateKey ∧
     initRegistry.registerState 'a' aperphot none "dup" = initRegistry ∧
     initRegistry.lookup 'a' = .ok aperEntry) :=
  ⟨initRegistry_wf, rfl,
   register_duplicate_rejected initRegistry 'a' aperEntry aperphot none "dup"
     initRegistry_wf rfl⟩

/-- C5: registering a key that is not bound succeeds, and looking the
key up with no intervening mutation returns a RegistryEntry whose
function is the registered function and whose description is the
registered description (parameter set included). -/
theorem register_then_lookup (r : Registry) (k : Char) (f : AnalysisFn)
    (ps : Option ParameterSet) (d : String)
    (hnb : r.lookup k = .error .UnknownKey) (hq : k ≠ quitKey) :
    ∃ r', r.register k f ps d = .ok r' ∧
      r'.lookup k = .ok ⟨k, f, ps, d, false⟩ := by
  have hreg : r.register k f ps d =
      .ok { entries := r.entries ++ [⟨k, f, ps, d, false⟩] } := by
    unfold Registry.register
    rw [if_neg hq, lookup_err_any hnb]
    simp
  refine ⟨_, hreg, ?_⟩
  unfold Registry.lookup
  have hfind : r.entries.find? (fun e => e.key = k) = none := by
    unfold Registry.lookup at hnb
    cases hf : r.entries.find? (fun e => e.key = k) with
    | none => rfl
    | some e' => rw [hf] at hnb; exact absurd hnb (by simp)
  rw [List.find?_append, hfind]
  simp

/-- A user analysis function in the style of the documented
`save_to_file` example: it reads nothing and reports value 0. -/
def save_to_file : AnalysisFn := fun _ _ _ _ => .ok 0

/-- C5 witness: registering the documented user function on the free
key 'p' and looking 'p' up returns exactly that function and its
description. -/
theorem register_then_lookup_witness :
    initRegistry.lookup 'p' = .error .UnknownKey ∧ 'p' ≠ quitKey ∧
    (∃ r', initRegistry.register 'p' save_to_file none
        "Save cursor location to file" = .ok r' ∧
      r'.lookup 'p' =
        .ok ⟨'p', save_to_file, none, "Save cursor location to file", false⟩) :=
  ⟨rfl, by decide,
   register_then_lookup initRegistry 'p' save_to_file none
     "Save cursor location to file" rfl (by decide)⟩

/-- C3: when a registered (non-sentinel) key's analysis function raises,
the dispatch step reports a caught `AnalysisFailure` instead of
propagating it, the session is unchanged, and in particular the loop's
continue flag is still true — one failing analysis call never
terminates the interactive loop. -/
theorem invoke_failure_caught (s : Session) (e : Event)
    (entry : RegistryEntry) (msg : String)
    (hk : e.key ≠ quitKey) (h2 : e.key ≠ '2')
    (hl : s.registry.lookup e.key = .ok entry)
    (hf : entry.fn e.x e.y (windowFor entry s.arr e.x e.y)
        (resolvedParams entry) = .error msg)
    (hc : s.contFlag = true) :
    step s e = (s, .report (.analysisFailure msg)) ∧
    (step s e).1.contFlag = true := by
  have hstep : step s e = (s, .report (invoke s.registry s.arr e.key e.x e.y)) := by
    unfold step
    rw [if_neg hk, if_neg h2]
  have hinv : invoke s.registry s.arr e.key e.x e.y = .analysisFailure msg := by
    unfold invoke
    rw [hl]
    simp only []
    rw [hf]
  rw [hstep, hinv]
  exact ⟨rfl, hc⟩

/-- An analysis function that always raises (a fit that never
converges), for exercising the Invoker's failure boundary. -/
def failing_fit : AnalysisFn := fun _ _ _ _ => .error "fit did not converge"

/-- The registry with the always-failing function registered on 'z'. -/
def regZ : Registry :=
  initRegistry.registerState 'z' failing_fit none "always fails"

/-- The session used to exercise the failure boundary. -/
def sessionZ : Session := ⟨regZ, flat100, true, 0⟩

/-- C3 witness: pressing 'z' (bound to the always-failing fit) at
(50, 50) reports `AnalysisFailure` and leaves the continue flag true. -/
theorem invoke_failure_caught_witness :
    (⟨50, 50, 'z'⟩ : Event).key ≠ quitKey ∧
    (⟨50, 50, 'z'⟩ : Event).key ≠ '2' ∧
    sessionZ.registry.lookup 'z' =
      .ok ⟨'z', failing_fit, none, "always fails", false⟩ ∧
    sessionZ.contFlag = true ∧
    (step sessionZ ⟨50, 50, 'z'⟩ =
        (sessionZ, .report (.analysisFailure "fit did not converge")) ∧
     (step sessionZ ⟨50, 50, 'z'⟩).1.contFlag = true) :=
  ⟨by decide, by decide, rfl, rfl,
   invoke_failure_caught sessionZ ⟨50, 50, 'z'⟩
     ⟨'z', failing_fit, none, "always fails", false⟩ "fit did not converge"
     (by decide) (by decide) rfl rfl rfl⟩

theorem step_quit_iff (s : Session) (e : Event) :
    (step s e).2 = .quit ↔ e.key = quitKey := by
  unfold step
  by_cases h : e.key = quitKey
  · simp [h]
  · by_cases h2 : e.key = '2'
    · rw [if_neg h, if_pos h2]
      simp [h]
    · rw [if_neg h, if_neg h2]
      simp [h]

theorem runLoop_cons_nonquit (s : Session) (e : Event) (rest : List Event)
    (h : e.key ≠ quitKey) :
    (runLoop s (e :: rest)).2 =
      ((runLoop (step s e).1 rest).2.1, (runLoop (step s e).1 rest).2.2 + 1) := by
  rcases hstep : step s e with ⟨s', rep⟩
  simp only [runLoop, hstep]
  cases rep with
  | quit => exact absurd ((step_quit_iff s e).mp (by rw [hstep])) h
  | newWindow => rfl
  | report o => rfl

theorem runLoop_reaches_quit (pre : List Event) (s : Session) (qe : Event)
    (post : List Event) (hq : qe.key = quitKey)
    (hpre : ∀ e ∈ pre, e.key ≠ quitKey) :
    (runLoop s (pre ++ qe :: post)).2 = (.TERMINATED, pre.length + 1) := by
  induction pre generalizing s with
  | nil =>
    rcases hstep : step s qe with ⟨s', rep⟩
    have hrep : rep = .quit := by
      have h1 := (step_quit_iff s qe).mpr hq
      rw [hstep] at h1
      exact h1
    subst hrep
    simp only [List.nil_append, runLoop, hstep, List.length_nil]
  | cons e pre ih =>
    have hk : e.key ≠ quitKey := hpre e (List.mem_cons_self e pre)
    have hpre' : ∀ x ∈ pre, x.key ≠ quitKey :=
      fun x hx => hpre x (List.mem_cons_of_mem e hx)
    rw [List.cons_append, runLoop_cons_nonquit _ _ _ hk]
    rw [ih (step s e).1 hpre']
    simp [Nat.add_comm]

theorem runLoop_no_quit_not_terminated (evts : List Event) (s : Session)
    (h : ∀ e ∈ evts, e.key ≠ quitKey) :
    (runLoop s evts).2.1 ≠ .TERMINATED := by
  induction evts generalizing s with
  | nil =>
    simp only [runLoop]
    decide
  | cons e rest ih =>
    have hk : e.key ≠ quitKey := h e (List.mem_cons_self e rest)
    have h' : ∀ x ∈ rest, x.key ≠ quitKey :=
      fun x hx => h x (List.mem_cons_of_mem e hx)
    rw [runLoop_cons_nonquit _ _ _ hk]
    exact ih (step s e).1 h'

/-- C2: while the loop is reading events, an event whose key is the
quit sentinel 'q' terminates it: the loop reaches TERMINATED having
polled exactly the events up to and including the quit event — the poll
count is independent of whatever events follow, so no further
poll_event() calls are made — and this is the only normal exit: a
stream with no quit key never reaches TERMINATED. -/
theorem quit_terminates_loop (s : Session) (pre : List Event) (qe : Event)
    (post : List Event) (hq : qe.key = quitKey)
    (hpre : ∀ e ∈ pre, e.key ≠ quitKey) :
    (runLoop s (pre ++ qe :: post)).2 = (.TERMINATED, pre.length + 1) ∧
    (∀ (s' : Session) (evts : List Event),
      (∀ e ∈ evts, e.key ≠ quitKey) →
      (runLoop s' evts).2.1 ≠ .TERMINATED) :=
  ⟨runLoop_reaches_quit pre s qe post hq hpre,
   fun s' evts h => runLoop_no_quit_not_terminated evts s' h⟩

/-- The session fixture for the loop scenario. -/
def session0 : Session := ⟨initRegistry, flat100, true, 0⟩

/-- C2 witness: pressing 'q' immediately terminates the loop after one
poll even though further events are queued behind it. -/
theorem quit_terminates_loop_witness :
    (⟨0, 0, 'q'⟩ : Event).key = quitKey ∧
    (∀ e ∈ ([] : List Event), e.key ≠ quitKey) ∧
    ((runLoop session0 ([] ++ ⟨0, 0, 'q'⟩ :: [⟨2, 2, 'm'⟩])).2 =
        (.TERMINATED, ([] : List Event).length + 1) ∧
     (∀ (s' : Session) (evts : List Event),
       (∀ e ∈ evts, e.key ≠ quitKey) →
       (runLoop s' evts).2.1 ≠ .TERMINATED)) :=
  ⟨rfl, fun e he => absurd he (List.not_mem_nil e),
   quit_terminates_loop session0 [] ⟨0, 0, 'q'⟩ [⟨2, 2, 'm'⟩] rfl
     (fun e he => absurd he (List.not_mem_nil e))⟩

/-- C7: with 'a' bound to aperture photometry at its default radius 5,
invoking at (50, 50) on the 100-by-100 synthetic array that is 10
everywhere returns a flux equal to 10 times the number of pixels whose
centers fall within distance 5 of the center; invocation is a pure
function of the registry, the array and the cursor, hence deterministic
for a fixed array. -/
theorem aperphot_flat_flux :
    invoke initRegistry flat100 'a' 50 50 =
      .result (10 * ((aperPixels (fullWindow flat100) 50 50 5).card : ℚ)) := by
  have h : invoke initRegistry flat100 'a' 50 50 =
      .result (aperFlux (fullWindow flat100) 50 50 5) := rfl
  rw [h]
  unfold aperFlux
  have h2 : (aperPixels (fullWindow flat100) 50 50 5).sum
      (fun p => (fullWindow flat100).data p.1 p.2) =
      (aperPixels (fullWindow flat100) 50 50 5).sum (fun _ => (10 : ℚ)) :=
    Finset.sum_congr rfl (fun p _ => rfl)
  rw [h2, Finset.sum_const, nsmul_eq_mul, mul_comm]

/-- Modelled from the spec: edit one option of the parameter set bound
to a key, in place (a failed `set` leaves the set as it was). -/
def Registry.setpar (r : Registry) (k : Char) (n : String) (v : ParamValue) :
    Registry :=
  { entries := r.entries.map (fun e =>
      if e.key = k then
        { e with pset := e.pset.map (fun p =>
            match p.set n v with
            | .ok p' => p'
            | .error _ => p) }
      else e) }

/-- The built-in registry with the aperture-photometry radius edited. -/
def radiusReg (n : Int) : Registry :=
  initRegistry.setpar 'a' "radius" (.pint n)

theorem aperFlux_mono (w : Window) (x y : ℚ) (r r' : Int)
    (hnn : ∀ i j, 0 ≤ w.data i j) (h0 : 0 ≤ r) (hrr : r ≤ r') :
    aperFlux w x y r ≤ aperFlux w x y r' := by
  unfold aperFlux
  apply Finset.sum_le_sum_of_subset_of_nonneg
  · intro p hp
    unfold aperPixels at hp ⊢
    simp only [Finset.mem_filter] at hp ⊢
    refine ⟨hp.1, le_trans hp.2 ?_⟩
    have hc : (r : ℚ) ≤ (r' : ℚ) := by exact_mod_cast hrr
    have h0q : (0 : ℚ) ≤ (r : ℚ) := by exact_mod_cast h0
    exact pow_le_pow_left₀ h0q hc 2
  · intro p _ _
    exact hnn p.1 p.2

/-- C8: enlarging the aperture-photometry radius through
`parameter_set.set("radius", ...)` and invoking 'a' again at the same
coordinates on the flat non-negative test array yields a flux that is
monotone in the radius: the larger radius includes more pixels and the
returned flux does not decrease. -/
theorem aperphot_radius_monotone (r r' : Int) (h0 : 0 ≤ r) (hrr : r ≤ r') :
    invoke (radiusReg r) flat100 'a' 50 50 =
      .result (aperFlux (fullWindow flat100) 50 50 r) ∧
    invoke (radiusReg r') flat100 'a' 50 50 =
      .result (aperFlux (fullWindow flat100) 50 50 r') ∧
    aperFlux (fullWindow flat100) 50 50 r ≤
      aperFlux (fullWindow flat100) 50 50 r' :=
  ⟨rfl, rfl,
   aperFlux_mono _ _ _ _ _ (fun i j => show (0:ℚ) ≤ 10 by norm_num) h0 hrr⟩

/-- C8 witness: enlarging the radius from the default 5 to 10 does not
decrease the returned flux. -/
theorem aperphot_radius_monotone_witness :
    (0 : Int) ≤ 5 ∧ (5 : Int) ≤ 10 ∧
    (invoke (radiusReg 5) flat100 'a' 50 50 =
        .result (aperFlux (fullWindow flat100) 50 50 5) ∧
     invoke (radiusReg 10) flat100 'a' 50 50 =
        .result (aperFlux (fullWindow flat100) 50 50 10) ∧
     aperFlux (fullWindow flat100) 50 50 5 ≤
        aperFlux (fullWindow flat100) 50 50 10) :=
  ⟨by decide, by decide, aperphot_radius_monotone 5 10 (by decide) (by decide)⟩

/-- Modelled from the spec: the construction data of one built-in
registry entry (its parameter-set defaults are the documented ones). -/
structure BuiltinSpec where
  key : Char
  fn : AnalysisFn
  opts : Option (List ParamOption)
  desc : String

/-- Modelled from the spec: build the registry of built-ins at
examination-loop construction time. -/
def mkRegistry (specs : List BuiltinSpec) : Registry :=
  { entries := specs.map (fun b =>
      ⟨b.key, b.fn, b.opts.map mkParameterSet, b.desc, true⟩) }

/-- A registry mutation available to the user between invocations:
registering a user function, unregistering a key, or editing one
parameter value. -/
inductive RegOp
  | reg (k : Char) (f : AnalysisFn) (ps : Option ParameterSet) (d : String)
  | unreg (k : Char)
  | setpar (k : Char) (n : String) (v : ParamValue)

/-- Apply one registry mutation (failed operations leave the registry
unchanged, as the raised error aborts the write). -/
def applyOp (r : Registry) : RegOp → Registry
  | .reg k f ps d => r.registerState k f ps d
  | .unreg k =>
    match r.unregister k with
    | .ok r' => r'
    | .error _ => r
  | .setpar k n v => r.setpar k n v

/-- Apply a sequence of registry mutations in order. -/
def applyOps (ops : List RegOp) (r : Registry) : Registry :=
  ops.foldl applyOp r

/-- Every built-in entry still carries the parameter-set defaults it was
constructed with (the invariant that makes `reset_all` a true restore). -/
def BuiltinDefaultsFrom (specs : List BuiltinSpec) (r : Registry) : Prop :=
  ∀ e ∈ r.entries, e.builtin = true →
    ∃ b ∈ specs, b.key = e.key ∧
      e.pset.map (fun p => p.defaults) = b.opts

theorem set_preserves_defaults (p : ParameterSet) (n : String) (v : ParamValue) :
    (match p.set n v with
     | .ok p' => p'
     | .error _ => p).defaults = p.defaults := by
  by_cases h : (p.options.any fun o => o.name = n) = true
  · simp only [ParameterSet.set, if_pos h]
  · simp only [ParameterSet.set, if_neg h]

theorem registerState_cases (r : Registry) (k : Char) (f : AnalysisFn)
    (ps : Option ParameterSet) (d : String) :
    r.registerState k f ps d = r ∨
    (r.registerState k f ps d).entries = r.entries ++ [⟨k, f, ps, d, false⟩] := by
  unfold Registry.registerState Registry.register
  by_cases h1 : k = quitKey
  · rw [if_pos h1]
    exact .inl rfl
  · rw [if_neg h1]
    by_cases h2 : r.entries.any (fun e => e.key = k) = true
    · rw [if_pos h2]
      exact .inl rfl
    · rw [if_neg h2]
      exact .inr rfl

theorem mkRegistry_defaults (specs : List BuiltinSpec) :
    BuiltinDefaultsFrom specs (mkRegistry specs) := by
  intro e he _
  simp only [mkRegistry, List.mem_map] at he
  obtain ⟨b, hb, rfl⟩ := he
  refine ⟨b, hb, rfl, ?_⟩
  cases b.opts <;> rfl

theorem applyOp_preserves_defaults (specs : List BuiltinSpec) (r : Registry)
    (op : RegOp) (h : BuiltinDefaultsFrom specs r) :
    BuiltinDefaultsFrom specs (applyOp r op) := by
  cases op with
  | reg k f ps d =>
    rcases registerState_cases r k f ps d with hcase | hcase
    · simp only [applyOp]
      rw [hcase]
      exact h
    · intro e he hb
      simp only [applyOp] at he
      rw [hcase] at he
      rcases List.mem_append.mp he with h1 | h1
      · exact h e h1 hb
      · simp only [List.mem_singleton] at h1
        subst h1
        exact absurd hb (by simp)
  | unreg k =>
    intro e he hb
    refine h e ?_ hb
    simp only [applyOp] at he
    by_cases hc : (r.entries.any fun e => e.key = k) = true
    · simp only [Registry.unregister, if_pos hc] at he
      exact List.mem_of_mem_filter he
    · simp only [Registry.unregister, if_neg hc] at he
      exact he
  | setpar k n v =>
    intro e he hb
    simp only [applyOp, Registry.setpar] at he
    simp only [List.mem_map] at he
    obtain ⟨e0, he0, rfl⟩ := he
    by_cases hk : e0.key = k
    · rw [if_pos hk] at hb ⊢
      obtain ⟨b, hbs, hbk, hbd⟩ := h e0 he0 hb
      refine ⟨b, hbs, hbk, ?_⟩
      rw [← hbd]
      cases hps : e0.pset with
      | none => rfl
      | some p => simp [set_preserves_defaults]
    · rw [if_neg hk] at hb ⊢
      exact h e0 he0 hb

theorem applyOps_preserves_defaults (specs : List BuiltinSpec)
    (ops : List RegOp) :
    ∀ r, BuiltinDefaultsFrom specs r →
      BuiltinDefaultsFrom specs (applyOps ops r) := by
  induction ops with
  | nil => exact fun r h => h
  | cons op ops ih => exact fun r h => ih _ (applyOp_preserves_defaults _ _ _ h)

theorem resetEntry_builtin (e : RegistryEntry) :
    (resetEntry e).builtin = e.builtin := rfl

theorem resetEntry_idem (e : RegistryEntry) :
    resetEntry (resetEntry e) = resetEntry e := by
  unfold resetEntry
  cases hps : e.pset with
  | none => rfl
  | some p => rfl

theorem reset_filter_map (l : List RegistryEntry)
    (h : ∀ e ∈ l, e.builtin = true) :
    ((l.map resetEntry).filter (fun e => e.builtin)).map resetEntry =
      l.map resetEntry := by
  induction l with
  | nil => rfl
  | cons e t ih =>
    have hb : e.builtin = true := h e (List.mem_cons_self e t)
    have ht : ∀ x ∈ t, x.builtin = true :=
      fun x hx => h x (List.mem_cons_of_mem e hx)
    simp only [List.map_cons, List.filter_cons, resetEntry_builtin, hb]
    simp only [resetEntry_idem, ih ht, if_true, decide_True, List.map_cons]

theorem reset_all_builtin_only (r : Registry) :
    ∀ e ∈ r.reset_all.entries, e.builtin = true := by
  intro e he
  simp only [Registry.reset_all, List.mem_map, List.mem_filter] at he
  obtain ⟨e0, ⟨_, hb⟩, rfl⟩ := he
  rw [resetEntry_builtin]
  simpa using hb

theorem reset_all_idem (r : Registry) :
    r.reset_all.reset_all = r.reset_all := by
  unfold Registry.reset_all
  congr 1
  apply reset_filter_map
  intro e he
  simp only [List.mem_filter] at he
  simpa using he.2

/-- C6: in every registry state reachable from construction by any
sequence of user mutations (register / unregister / parameter edits),
`reset_all()` leaves only built-in entries (every user-added key is
removed), restores every remaining built-in entry's ParameterSet so
that `as_dict()` equals its construction-time values, and a second
`reset_all()` immediately afterwards is a no-op. -/
theorem reset_all_restores (specs : List BuiltinSpec) (ops : List RegOp) :
    (∀ e ∈ ((applyOps ops (mkRegistry specs)).reset_all).entries,
      e.builtin = true) ∧
    (∀ e ∈ ((applyOps ops (mkRegistry specs)).reset_all).entries,
      ∃ b ∈ specs, b.key = e.key ∧
        e.pset.map ParameterSet.as_dict =
          b.opts.map (fun opts => (mkParameterSet opts).as_dict)) ∧
    ((applyOps ops (mkRegistry specs)).reset_all).reset_all =
      (applyOps ops (mkRegistry specs)).reset_all := by
  have hinv := applyOps_preserves_defaults specs ops (mkRegistry specs)
    (mkRegistry_defaults specs)
  refine ⟨reset_all_builtin_only _, ?_, reset_all_idem _⟩
  intro e he
  simp only [Registry.reset_all, List.mem_map, List.mem_filter] at he
  obtain ⟨e0, ⟨he0, hb⟩, rfl⟩ := he
  obtain ⟨b, hbs, hbk, hbd⟩ := hinv e0 he0 (by simpa using hb)
  refine ⟨b, hbs, hbk, ?_⟩
  cases hps : e0.pset with
  | none =>
    rw [hps] at hbd
    simp only [resetEntry, hps]
    rw [← hbd]
    rfl
  | some p =>
    rw [hps] at hbd
    simp only [resetEntry, hps]
    rw [← hbd]
    rfl

/-- C4 witness: the edge case itself — region size 5 at cursor (0, 0)
on the 100-by-100 array stays in bounds and comes back reduced. -/
theorem resolveWindow_safe_witness :
    0 < flat100.w ∧ 0 < flat100.h ∧
    (-(1/2 : ℚ) ≤ 0 ∧ (0 : ℚ) ≤ (flat100.w : ℚ) - 1/2) ∧
    (-(1/2 : ℚ) ≤ 0 ∧ (0 : ℚ) ≤ (flat100.h : ℚ) - 1/2) ∧
    ((∀ i j, (resolveWindow flat100 5 0 0).inWindow i j →
        i < flat100.w ∧ j < flat100.h) ∧
     (resolveWindow flat100 5 0 0).width = 3 ∧
     (resolveWindow flat100 5 0 0).height = 3 ∧
     (resolveWindow flat100 5 0 0).width < 5) :=
  ⟨by decide, by decide,
   ⟨by norm_num, by norm_num [flat100, flat]⟩,
   ⟨by norm_num, by norm_num [flat100, flat]⟩,
   resolveWindow_safe flat100 5 0 0 (by decide) (by decide)
     ⟨by norm_num, by norm_num [flat100, flat]⟩
     ⟨by norm_num, by norm_num [flat100, flat]⟩⟩
